import Mathlib

/-!
Shallow embedding of `src/time_series.py` (module `time_series`).

Dates (pandas timestamps) are modelled as rationals counting days since the
Unix epoch; `timedelta(days=q)` is addition of `q`.  Observation values,
gradients and thresholds are rationals.  Python runtime failures
(`TypeError`, `ValueError`, `ZeroDivisionError`, `IndexError`, `KeyError`,
`AttributeError`) are modelled with `Except PyErr`; a `None` argument is an
`Option` that is `none`.  NaN cells produced by pandas are `Option.none`
values.
-/

namespace TimeSeries

/-- The Python runtime errors that the modelled operations can raise. -/
inductive PyErr where
  | typeError
  | valueError
  | zeroDivisionError
  | indexError
  | keyError
  | attributeError
deriving Repr, DecidableEq

/-- A `pandas.Series`: a date index paired positionally with values. -/
structure PSeries where
  index : List ℚ
  values : List ℚ
deriving Repr, DecidableEq

/-- Python `max(xs)`: raises `ValueError` on an empty sequence. -/
def pyMax : List ℚ → Except PyErr ℚ
  | [] => .error .valueError
  | x :: xs => .ok (xs.foldl max x)

/-- Python `min(xs)`: raises `ValueError` on an empty sequence. -/
def pyMin : List ℚ → Except PyErr ℚ
  | [] => .error .valueError
  | x :: xs => .ok (xs.foldl min x)

/-- Python division: raises `ZeroDivisionError` when the divisor is zero. -/
def pyDiv (a b : ℚ) : Except PyErr ℚ :=
  if b = 0 then .error .zeroDivisionError else .ok (a / b)

/-- Core of `np.argmin`: the value and position of the first minimum of a
list (`numpy` returns the lowest index attaining the minimum). -/
def minWithIdx : List ℚ → Option (ℕ × ℚ)
  | [] => none
  | x :: xs =>
    match minWithIdx xs with
    | none => some (0, x)
    | some (j, m) => if x ≤ m then some (0, x) else some (j + 1, m)

/-- Model of `pd.date_range(start, stop)` with the default daily frequency: the days
`start, start+1, ...` not exceeding `stop`; empty when `stop < start`. -/
def date_range (start stop : ℚ) : List ℚ :=
  if stop < start then []
  else (List.range ((⌊stop - start⌋).toNat + 1)).map fun i : ℕ => start + (i : ℚ)

/-- Model of `np.linspace(start, stop, num)`: `num` evenly spaced samples from
`start` to `stop` inclusive. -/
def linspace (start stop : ℚ) (num : ℕ) : List ℚ :=
  if num = 0 then []
  else if num = 1 then [start]
  else (List.range num).map fun i : ℕ => start + (i : ℚ) * ((stop - start) / ((num : ℚ) - 1))

/-- Lines 30–34 of `get_target`: choose the starting date/value.  When
`target_start` is `None`, `idx = np.abs(ts.index - target_start_date).argmin()`
is the first nearest index, `target_start_date` becomes `ts.index[idx]` and
`target_start` becomes `ts[target_start_date]` (label lookup, first matching
position).  `ts=None` makes `ts.index` raise (`AttributeError`) and
`target_start_date=None` makes the index subtraction raise (`TypeError`). -/
def resolve_start (target_start_date : Option ℚ) (target_start : Option ℚ)
    (ts : Option PSeries) : Except PyErr (Option ℚ × ℚ) :=
  match target_start with
  | some v => .ok (target_start_date, v)
  | none =>
    match ts with
    | none => .error .attributeError
    | some s =>
      match target_start_date with
      | none => .error .typeError
      | some d =>
        match minWithIdx (s.index.map fun x => |x - d|) with
        | none => .error .valueError
        | some (idx, _) =>
          match s.index.get? idx with
          | none => .error .indexError
          | some label =>
            match (s.index.zip s.values).find? (fun p => p.1 == label) with
            | none => .error .keyError
            | some p => .ok (some label, p.2)

/-- Lines 37–48 of `get_target`: pick the end value from the thresholds by
the sign test `target_gradient > 0`, extrapolate the end date, and build the
daily, linearly interpolated series.  A `None` gradient fails at the
comparison, `None` thresholds fail at `max`/`min`, and a `None` start date
fails at the `timedelta` addition — all `TypeError`s, in that order, with
the empty-sequence `ValueError` and the `ZeroDivisionError` in between, as
in the source. -/
def build_target (target_start_date : Option ℚ) (target_start : ℚ)
    (target_gradient : Option ℚ) (thresholds : Option (List ℚ)) :
    Except PyErr PSeries :=
  match target_gradient with
  | none => .error .typeError
  | some g =>
    match thresholds with
    | none => .error .typeError
    | some thr =>
      match (if g > 0 then pyMax thr else pyMin thr) with
      | .error e => .error e
      | .ok target_end =>
        match pyDiv (target_end - target_start) g with
        | .error e => .error e
        | .ok span =>
          match target_start_date with
          | none => .error .typeError
          | some sd =>
            let target_index := date_range sd (sd + span)
            .ok ⟨target_index, linspace target_start target_end target_index.length⟩

/-- Function `get_target` from `src/time_series.py`: resolve the start point, then
build the straight-line target series. -/
def get_target (target_start_date target_gradient : Option ℚ)
    (target_start : Option ℚ := none) (ts : Option PSeries := none)
    (thresholds : Option (List ℚ) := none) : Except PyErr PSeries :=
  match resolve_start target_start_date target_start ts with
  | .error e => .error e
  | .ok (sd, sv) => build_target sd sv target_gradient thresholds

/-- Model of `ts.rolling(window=7).mean()` (here for a general window): pandas keeps
the output aligned with the input, and with the default
`min_periods = window` every position seeing fewer than `window` samples is
NaN (`none`); from position `window - 1` on, the arithmetic mean of the
trailing `window` samples. -/
def rolling_mean (window : ℕ) (vals : List ℚ) : List (Option ℚ) :=
  (List.range vals.length).map fun i =>
    if i + 1 < window then none
    else some (((vals.drop (i + 1 - window)).take window).sum / (window : ℚ))

/-- Model of `ts.expanding().mean()`: position `i` holds the mean of the first
`i + 1` samples (pandas default `min_periods=1`, so every cell is filled). -/
def expanding_mean (vals : List ℚ) : List ℚ :=
  (List.range vals.length).map fun i => (vals.take (i + 1)).sum / ((i : ℚ) + 1)

/-- Modelled from the spec: `pd.read_csv(path, delimiter=";", header=None,
names=["Observations"], parse_dates=True, index_col=1, squeeze=True)` is a
library call, modelled per spec §4.1/§6/§7 and `test_empty_file`.  A row of
the semicolon-delimited file is a `(value, date)` pair; the second column
becomes the index and the first the observations.  An empty file yields no
data and the index access (`index_col=1` against the single supplied column
name) raises an index-out-of-range error rather than producing an empty
series. -/
def read_csv (rows : List (ℚ × ℚ)) : Except PyErr PSeries :=
  match rows with
  | [] => .error .indexError
  | _ => .ok ⟨rows.map Prod.snd, rows.map Prod.fst⟩

/-- One `plt.plot(thresholds_index, [t, t], "--", color=c, label=n)` call:
the x-span endpoints, the constant y pair, the colour and the legend
label. -/
structure ThresholdLine where
  xspan : ℚ × ℚ
  yvals : ℚ × ℚ
  colour : String
  ttl : String
deriving Repr, DecidableEq

/-- The `for ithreshold, threshold in enumerate(thresholds)` loop of `work`:
the `ithreshold`-th line reads `threshold_colours[ithreshold]` and then
`threshold_names[ithreshold]`; a `None` sequence raises `TypeError` when
first subscripted, a too-short one raises `IndexError`, and neither is
touched when `thresholds` is exhausted first. -/
def buildLines (lo hi : ℚ) : List ℚ → Option (List String) → Option (List String) →
    Except PyErr (List ThresholdLine)
  | [], _, _ => .ok []
  | t :: ts, cs?, ns? =>
    match cs? with
    | none => .error .typeError
    | some [] => .error .indexError
    | some (c :: cs) =>
      match ns? with
      | none => .error .typeError
      | some [] => .error .indexError
      | some (n :: ns) =>
        (buildLines lo hi ts (some cs) (some ns)).map (⟨(lo, hi), (t, t), c, n⟩ :: ·)

/-- Everything `work` hands to matplotlib before `plt.savefig`: the raw
series (plotted as points), the two averaged traces, the target curve, the
threshold lines, the y-axis label and the output path. -/
structure RenderResult where
  series : PSeries
  rollingMean : List (Option ℚ)
  runningMean : List ℚ
  target : PSeries
  thresholdLines : List ThresholdLine
  yLabel : String
  png : String
deriving Repr, DecidableEq

/-- Function `work` from `src/time_series.py`.  The `try/except` around the read
prints a diagnostic and re-raises, so read failures propagate unchanged.
`get_target` is called unconditionally with `ts` and `thresholds` only
(`work`'s own `target_start` parameter is never forwarded).
`thresholds_index` needs the first and last dates of both the observed
series and the target curve (an empty one raises `IndexError`), and the
threshold loop draws one line per threshold. -/
def work (rows : List (ℚ × ℚ)) (png_filename : String)
    (thresholds : Option (List ℚ))
    (threshold_names threshold_colours : Option (List String))
    (y_axis_label : String := "Value")
    (target_start target_start_date target_gradient : Option ℚ := none) :
    Except PyErr RenderResult :=
  match read_csv rows with
  | .error e => .error e
  | .ok ts =>
    match get_target target_start_date target_gradient none (some ts) thresholds with
    | .error e => .error e
    | .ok target =>
      match ts.index.head?, target.index.head? with
      | some a, some b =>
        (match ts.index.getLast?, target.index.getLast? with
         | some a2, some b2 =>
           (match thresholds with
            | none => .error .typeError
            | some thrList =>
              match buildLines (min a b) (max a2 b2) thrList
                  threshold_colours threshold_names with
              | .error e => .error e
              | .ok lines =>
                .ok ⟨ts, rolling_mean 7 ts.values, expanding_mean ts.values, target,
                     lines, y_axis_label, png_filename⟩)
         | _, _ => .error .indexError)
      | _, _ => .error .indexError

/-- Day number of `2020-01-01`: days since the Unix epoch. -/
def date_2020_01_01 : ℚ := 18262

/-- Day number of `2020-01-11`: days since the Unix epoch. -/
def date_2020_01_11 : ℚ := 18272

/-- The first minimum is a member: its index is in range and holds its value. -/
theorem minWithIdx_get : ∀ (l : List ℚ) (j : ℕ) (m : ℚ),
    minWithIdx l = some (j, m) → l.get? j = some m := by
  intro l
  induction l with
  | nil => intro j m h; simp [minWithIdx] at h
  | cons x xs ih =>
    intro j m h
    cases hx : minWithIdx xs with
    | none =>
      simp only [minWithIdx, hx, Option.some.injEq, Prod.mk.injEq] at h
      obtain ⟨hj, hm⟩ := h
      subst hj; subst hm; rfl
    | some p =>
      obtain ⟨j', m'⟩ := p
      simp only [minWithIdx, hx] at h
      by_cases hle : x ≤ m'
      · rw [if_pos hle] at h
        simp only [Option.some.injEq, Prod.mk.injEq] at h
        obtain ⟨hj, hm⟩ := h
        subst hj; subst hm; rfl
      · rw [if_neg hle] at h
        simp only [Option.some.injEq, Prod.mk.injEq] at h
        obtain ⟨hj, hm⟩ := h
        subst hm
        rw [← hj, List.get?_cons_succ]
        exact ih _ _ hx

/-- Nonempty lists have a first minimum. -/
theorem minWithIdx_of_ne_nil : ∀ (l : List ℚ), l ≠ [] →
    ∃ j m, minWithIdx l = some (j, m) := by
  intro l hl
  cases l with
  | nil => exact absurd rfl hl
  | cons x xs =>
    cases hx : minWithIdx xs with
    | none => exact ⟨0, x, by simp only [minWithIdx, hx]⟩
    | some p =>
      obtain ⟨j', m'⟩ := p
      by_cases hle : x ≤ m'
      · exact ⟨0, x, by simp only [minWithIdx, hx, if_pos hle]⟩
      · exact ⟨j' + 1, m', by simp only [minWithIdx, hx, if_neg hle]⟩

/-- The first minimum's value is a lower bound for every element. -/
theorem minWithIdx_le : ∀ (l : List ℚ) (j : ℕ) (m : ℚ),
    minWithIdx l = some (j, m) → ∀ (k : ℕ) (y : ℚ), l.get? k = some y → m ≤ y := by
  intro l
  induction l with
  | nil => intro j m h; simp [minWithIdx] at h
  | cons x xs ih =>
    intro j m h k y hk
    cases hx : minWithIdx xs with
    | none =>
      have hxs : xs = [] := by
        cases xs with
        | nil => rfl
        | cons z zs =>
          exfalso
          obtain ⟨j0, m0, hj0⟩ := minWithIdx_of_ne_nil (z :: zs) (by simp)
          rw [hj0] at hx
          cases hx
      subst hxs
      simp only [minWithIdx, Option.some.injEq, Prod.mk.injEq] at h
      obtain ⟨_, hm⟩ := h
      subst hm
      cases k with
      | zero =>
        rw [List.get?_cons_zero] at hk
        injection hk with hk
        subst hk
        exact le_refl _
      | succ k' => simp [List.get?] at hk
    | some p =>
      obtain ⟨j', m'⟩ := p
      simp only [minWithIdx, hx] at h
      by_cases hle : x ≤ m'
      · rw [if_pos hle] at h
        simp only [Option.some.injEq, Prod.mk.injEq] at h
        obtain ⟨_, hm⟩ := h
        subst hm
        cases k with
        | zero =>
          rw [List.get?_cons_zero] at hk
          injection hk with hk
          subst hk
          exact le_refl _
        | succ k' =>
          rw [List.get?_cons_succ] at hk
          exact le_trans hle (ih _ _ hx _ _ hk)
      · rw [if_neg hle] at h
        simp only [Option.some.injEq, Prod.mk.injEq] at h
        obtain ⟨_, hm⟩ := h
        subst hm
        cases k with
        | zero =>
          simp only [List.get?_cons_zero, Option.some.injEq] at hk
          subst hk
          exact le_of_lt (lt_of_not_le hle)
        | succ k' =>
          rw [List.get?_cons_succ] at hk
          exact ih _ _ hx _ _ hk

/-- Ties go to the lowest index: every element strictly before the first
minimum is strictly larger. -/
theorem minWithIdx_first : ∀ (l : List ℚ) (j : ℕ) (m : ℚ),
    minWithIdx l = some (j, m) →
    ∀ (k : ℕ) (y : ℚ), k < j → l.get? k = some y → m < y := by
  intro l
  induction l with
  | nil => intro j m h; simp [minWithIdx] at h
  | cons x xs ih =>
    intro j m h k y hkj hk
    cases hx : minWithIdx xs with
    | none =>
      simp only [minWithIdx, hx, Option.some.injEq, Prod.mk.injEq] at h
      omega
    | some p =>
      obtain ⟨j', m'⟩ := p
      simp only [minWithIdx, hx] at h
      by_cases hle : x ≤ m'
      · rw [if_pos hle] at h
        simp only [Option.some.injEq, Prod.mk.injEq] at h
        omega
      · rw [if_neg hle] at h
        simp only [Option.some.injEq, Prod.mk.injEq] at h
        obtain ⟨hj, hm⟩ := h
        subst hm
        cases k with
        | zero =>
          simp only [List.get?_cons_zero, Option.some.injEq] at hk
          subst hk
          exact lt_of_not_le hle
        | succ k' =>
          rw [List.get?_cons_succ] at hk
          exact ih _ _ hx _ _ (by omega) hk

/-- A `find?` over a zipped pair of lists returns the entry at the first
position whose left component matches. -/
theorem find_zip_eq : ∀ (xs ys : List ℚ) (idx : ℕ) (label y : ℚ),
    xs.get? idx = some label → ys.get? idx = some y →
    (∀ k, k < idx → xs.get? k ≠ some label) →
    (xs.zip ys).find? (fun p => p.1 == label) = some (label, y) := by
  intro xs
  induction xs with
  | nil => intro ys idx label y hx; simp [List.get?] at hx
  | cons x xs ih =>
    intro ys idx label y hx hy hfirst
    cases ys with
    | nil => simp [List.get?] at hy
    | cons z zs =>
      cases idx with
      | zero =>
        simp only [List.get?_cons_zero, Option.some.injEq] at hx hy
        subst hx; subst hy
        simp [List.zip_cons_cons, List.find?_cons]
      | succ idx' =>
        rw [List.get?_cons_succ] at hx hy
        have hne : x ≠ label := by
          intro hcon
          exact hfirst 0 (Nat.succ_pos idx') (by simp [hcon])
        rw [List.zip_cons_cons, List.find?_cons_of_neg _ (by simp [hne])]
        exact ih zs idx' label y hx hy
          (fun k hk hcon => hfirst (k + 1) (by omega) (by rw [List.get?_cons_succ]; exact hcon))

/-- Over a whole, non-negative number of days the daily range is exactly
the days from the start to the start plus that number. -/
theorem date_range_add_nat (s : ℚ) (k : ℕ) :
    date_range s (s + (k : ℚ)) = (List.range (k + 1)).map fun i : ℕ => s + (i : ℚ) := by
  unfold date_range
  rw [if_neg (by push_neg; exact le_add_of_nonneg_right (by positivity))]
  rw [add_sub_cancel_left, Int.floor_natCast, Int.toNat_natCast]

/-- Length of the modelled linspace is the requested sample count. -/
theorem linspace_length (a b : ℚ) (n : ℕ) : (linspace a b n).length = n := by
  unfold linspace
  by_cases h0 : n = 0
  · rw [if_pos h0, h0]; rfl
  · rw [if_neg h0]
    by_cases h1 : n = 1
    · rw [if_pos h1, h1]; rfl
    · rw [if_neg h1]; simp

/-- Head of a nonempty linspace is the start value. -/
theorem linspace_head? (a b : ℚ) (n : ℕ) (h : n ≠ 0) :
    (linspace a b n).head? = some a := by
  unfold linspace
  rw [if_neg h]
  by_cases h1 : n = 1
  · rw [if_pos h1]; rfl
  · rw [if_neg h1]
    obtain ⟨m, rfl⟩ := Nat.exists_eq_succ_of_ne_zero h
    rw [List.range_succ_eq_map]
    simp

/-- Last element of a linspace with at least two points is the stop value. -/
theorem linspace_getLast? (a b : ℚ) (n : ℕ) (h : 2 ≤ n) :
    (linspace a b n).getLast? = some b := by
  unfold linspace
  rw [if_neg (by omega), if_neg (by omega)]
  obtain ⟨m, rfl⟩ : ∃ m, n = m + 1 := ⟨n - 1, by omega⟩
  rw [List.range_succ, List.map_append, List.map_cons, List.map_nil,
    List.getLast?_concat]
  have hm : (m : ℚ) ≠ 0 := Nat.cast_ne_zero.mpr (by omega)
  congr 1
  push_cast
  field_simp

/-- Unfolding `get_target` when the start resolves and both the gradient and
the thresholds are present: the curve is the daily range from the start to
the extrapolated end date, carrying the linspace from start value to end
value. -/
theorem get_target_build (target_start_date target_start : Option ℚ)
    (ts : Option PSeries) (g sv sd ev : ℚ) (thr : List ℚ)
    (hres : resolve_start target_start_date target_start ts = .ok (some sd, sv))
    (hev : (if g > 0 then pyMax thr else pyMin thr) = .ok ev)
    (hgz : g ≠ 0) :
    get_target target_start_date (some g) target_start ts (some thr) =
      .ok ⟨date_range sd (sd + (ev - sv) / g),
           linspace sv ev (date_range sd (sd + (ev - sv) / g)).length⟩ := by
  have h1 : get_target target_start_date (some g) target_start ts (some thr)
      = build_target (some sd) sv (some g) (some thr) := by
    unfold get_target
    rw [hres]
  rw [h1]
  simp only [build_target, hev, pyDiv, if_neg hgz]

/-- Membership in the modelled daily range: exactly the whole-day offsets
from the start that do not pass the stop. -/
theorem date_range_mem (s e q : ℚ) :
    q ∈ date_range s e ↔ ∃ i : ℕ, q = s + (i : ℚ) ∧ q ≤ e := by
  unfold date_range
  by_cases h : e < s
  · rw [if_pos h]
    simp only [List.not_mem_nil, false_iff, not_exists, not_and]
    intro i hq
    have hs : s ≤ q := by
      rw [hq]
      exact le_add_of_nonneg_right (by positivity)
    intro hle
    linarith
  · rw [if_neg h]
    push_neg at h
    simp only [List.mem_map, List.mem_range]
    constructor
    · rintro ⟨i, hi, rfl⟩
      refine ⟨i, rfl, ?_⟩
      have hi' : i ≤ (⌊e - s⌋).toNat := by omega
      have h0 : (0 : ℤ) ≤ ⌊e - s⌋ := Int.floor_nonneg.mpr (by linarith)
      have h2 : (i : ℤ) ≤ ⌊e - s⌋ := (Int.le_toNat h0).mp hi'
      have h3 : (i : ℚ) ≤ e - s := by
        have := Int.le_floor.mp h2
        exact_mod_cast this
      linarith
    · rintro ⟨i, rfl, hle⟩
      refine ⟨i, ?_, rfl⟩
      have h3 : (i : ℚ) ≤ e - s := by linarith
      have h2 : (i : ℤ) ≤ ⌊e - s⌋ := Int.le_floor.mpr (by exact_mod_cast h3)
      have h0 : (0 : ℤ) ≤ ⌊e - s⌋ := Int.floor_nonneg.mpr (by linarith)
      omega

/-- The modelled daily range never repeats a day. -/
theorem date_range_nodup (s e : ℚ) : (date_range s e).Nodup := by
  unfold date_range
  split
  · exact List.nodup_nil
  · refine (List.nodup_range _).map ?_
    intro i j hij
    have h1 : (i : ℚ) = (j : ℚ) := add_left_cancel hij
    exact_mod_cast h1

/-- A linspace with a non-decreasing endpoint pair is pairwise
non-decreasing. -/
theorem linspace_pairwise_le (a b : ℚ) (n : ℕ) (hab : a ≤ b) :
    (linspace a b n).Pairwise (· ≤ ·) := by
  unfold linspace
  split
  · exact List.Pairwise.nil
  · split
    · simp
    · rename_i h0 h1
      have h2 : 2 ≤ n := by omega
      have hn : (2 : ℚ) ≤ (n : ℚ) := by exact_mod_cast h2
      have hstep : 0 ≤ (b - a) / ((n : ℚ) - 1) := div_nonneg (by linarith) (by linarith)
      refine List.Pairwise.map _ ?_ (List.pairwise_lt_range n)
      intro i j hij
      have : (i : ℚ) ≤ (j : ℚ) := by exact_mod_cast le_of_lt hij
      have := mul_le_mul_of_nonneg_right this hstep
      linarith

/-- A linspace with a non-increasing endpoint pair is pairwise
non-increasing. -/
theorem linspace_pairwise_ge (a b : ℚ) (n : ℕ) (hab : b ≤ a) :
    (linspace a b n).Pairwise (fun x y => y ≤ x) := by
  unfold linspace
  split
  · exact List.Pairwise.nil
  · split
    · simp
    · rename_i h0 h1
      have h2 : 2 ≤ n := by omega
      have hn : (2 : ℚ) ≤ (n : ℚ) := by exact_mod_cast h2
      have hstep : (b - a) / ((n : ℚ) - 1) ≤ 0 :=
        div_nonpos_of_nonpos_of_nonneg (by linarith) (by linarith)
      refine List.Pairwise.map _ ?_ (List.pairwise_lt_range n)
      intro i j hij
      have : (i : ℚ) ≤ (j : ℚ) := by exact_mod_cast le_of_lt hij
      have := mul_le_mul_of_nonpos_right this hstep
      linarith

/-- Head of a mapped nonempty initial segment of the naturals. -/
theorem range_map_head? (f : ℕ → ℚ) (n : ℕ) :
    ((List.range (n + 1)).map f).head? = some (f 0) := by
  rw [List.range_succ_eq_map, List.map_cons]
  rfl

/-- Last element of a mapped nonempty initial segment of the naturals. -/
theorem range_map_getLast? (f : ℕ → ℚ) (n : ℕ) :
    ((List.range (n + 1)).map f).getLast? = some (f n) := by
  rw [List.range_succ, List.map_append, List.map_cons, List.map_nil,
    List.getLast?_concat]

/-- C10: when `target_start` is supplied (not `None`), the result of
`get_target` is completely independent of the observed series argument
`ts`: any two `ts` values (including `None`) give the same series, all
other arguments held fixed. -/
theorem C10_ts_independent (target_start_date target_gradient : Option ℚ) (v : ℚ)
    (ts1 ts2 : Option PSeries) (thresholds : Option (List ℚ)) :
    get_target target_start_date target_gradient (some v) ts1 thresholds =
      get_target target_start_date target_gradient (some v) ts2 thresholds := rfl

/-- C7: `get_target` fails with the empty-sequence error (`ValueError`, from
`max`/`min` of an empty sequence) whenever `thresholds` is empty, and with
`ZeroDivisionError` when the gradient is zero (and the thresholds are there
for `min` to succeed first); neither condition is validated before the
failing operation. -/
theorem C7_error_conditions :
    (∀ (d : Option ℚ) (g sv : ℚ) (ts : Option PSeries),
        get_target d (some g) (some sv) ts (some []) = .error .valueError) ∧
    (∀ (d : Option ℚ) (sv : ℚ) (ts : Option PSeries) (thr : List ℚ), thr ≠ [] →
        get_target d (some 0) (some sv) ts (some thr) = .error .zeroDivisionError) := by
  constructor
  · intro d g sv ts
    show build_target d sv (some g) (some []) = .error .valueError
    simp only [build_target]
    by_cases hg : g > 0
    · rw [if_pos hg]; rfl
    · rw [if_neg hg]; rfl
  · intro d sv ts thr hne
    show build_target d sv (some 0) (some thr) = .error .zeroDivisionError
    simp only [build_target]
    rw [if_neg (by norm_num : ¬ (0 : ℚ) > 0)]
    cases thr with
    | nil => exact absurd rfl hne
    | cons t rest => simp [pyMin, pyDiv]

/-- Witness for C7 at concrete inputs: empty thresholds raise the
empty-sequence error, and a zero gradient with a nonempty threshold list
raises the division-by-zero error. -/
theorem C7_error_conditions_witness :
    get_target (some 0) (some 1) (some 5) none (some []) = .error .valueError ∧
    get_target (some 0) (some 0) (some 5) none (some [3]) = .error .zeroDivisionError :=
  ⟨C7_error_conditions.1 (some 0) 1 5 none,
   C7_error_conditions.2 (some 0) 5 none [3] (by simp)⟩

/-- C6: for `thresholds=[10, 20]`, `gradient=+1`, `target_start=10`,
`target_start_date=2020-01-01`, the curve ends at value `20` on
`2020-01-11` (day 18272) and has exactly 11 points. -/
theorem C6_example_curve :
    get_target (some date_2020_01_01) (some 1) (some 10) none (some [10, 20]) =
      .ok ⟨[18262, 18263, 18264, 18265, 18266, 18267, 18268, 18269, 18270, 18271, 18272],
           [10, 11, 12, 13, 14, 15, 16, 17, 18, 19, 20]⟩ ∧
    date_2020_01_01 + ((20 : ℚ) - 10) / 1 = date_2020_01_11 ∧
    ([18262, 18263, 18264, 18265, 18266, 18267, 18268, 18269, 18270, 18271,
      (18272 : ℚ)] : List ℚ).length = 11 := by
  refine ⟨?_, by norm_num [date_2020_01_01, date_2020_01_11], by norm_num⟩
  norm_num [get_target, resolve_start, build_target, pyMax, pyMin, pyDiv, date_range,
    linspace, date_2020_01_01, show Int.toNat 10 = 10 from rfl,
    show List.range 11 = [0, 1, 2, 3, 4, 5, 6, 7, 8, 9, 10] from rfl]

/-- C1 counterexample: the claim promises the curve's first point is
`(start_date, start_value)` and its last point is `(end_date, end_value)`
for every non-empty threshold list and non-zero gradient.  Two concrete
calls refute it: with start value 30 above `max(thresholds) = 20` and
gradient `+1` the extrapolated end date precedes the start date, so the
curve is empty and has no first point at all; and with a fractional day
span `(21 - 10) / 2 = 11/2` the last point of the curve sits on day 5
while the claim's `end_date` is day `11/2`. -/
theorem C1_counterexample :
    get_target (some 0) (some 1) (some 30) none (some [10, 20]) = .ok ⟨[], []⟩ ∧
    get_target (some 0) (some 2) (some 10) none (some [10, 21]) =
      .ok ⟨[0, 1, 2, 3, 4, 5], [10, 61/5, 72/5, 83/5, 94/5, 21]⟩ ∧
    (0 : ℚ) + ((21 : ℚ) - 10) / 2 ≠ 5 := by
  refine ⟨?_, ?_, by norm_num⟩
  · norm_num [get_target, resolve_start, build_target, pyMax, pyMin, pyDiv, date_range,
      linspace]
  · have h5 : (⌊(11/2 : ℚ)⌋ : ℤ) = 5 := by
      rw [Int.floor_eq_iff] <;> norm_num
    norm_num [get_target, resolve_start, build_target, pyMax, pyMin, pyDiv, date_range,
      linspace, h5, show Int.toNat 5 = 5 from rfl,
      show List.range 6 = [0, 1, 2, 3, 4, 5] from rfl]

/-- C1 (amended): whenever the start resolves to `(start_date,
start_value)`, the thresholds and the gradient are present, and the
extrapolated span `(end_value - start_value) / gradient` is a non-negative
whole number of days, the returned curve's first point is `(start_date,
start_value)` and its last point is `(end_date, end_value)`, where
`end_value` is `max(thresholds)` for positive gradient and
`min(thresholds)` otherwise (the `hev` hypothesis is exactly that branch of
the code) and `end_date = start_date + span`. -/
theorem C1_target_endpoints (target_start_date target_start : Option ℚ)
    (ts : Option PSeries) (g sv sd ev : ℚ) (thr : List ℚ) (k : ℕ)
    (hres : resolve_start target_start_date target_start ts = .ok (some sd, sv))
    (hev : (if g > 0 then pyMax thr else pyMin thr) = .ok ev)
    (hgz : g ≠ 0) (hspan : (ev - sv) / g = (k : ℚ)) :
    ∃ curve : PSeries,
      get_target target_start_date (some g) target_start ts (some thr) = .ok curve ∧
      curve.index.head? = some sd ∧ curve.values.head? = some sv ∧
      curve.index.getLast? = some (sd + (ev - sv) / g) ∧
      curve.values.getLast? = some ev := by
  have hgt := get_target_build target_start_date target_start ts g sv sd ev thr hres hev hgz
  rw [hspan, date_range_add_nat] at hgt
  have hlen : ((List.range (k + 1)).map fun i : ℕ => sd + (i : ℚ)).length = k + 1 := by
    simp
  rw [hlen] at hgt
  refine ⟨_, hgt, ?_, ?_, ?_, ?_⟩
  · rw [range_map_head?]
    norm_num
  · rw [linspace_head? _ _ _ (by omega)]
  · rw [range_map_getLast?, hspan]
  · cases k with
    | zero =>
      have hev' : ev = sv := by
        have h0 : (ev - sv) / g = 0 := by rw [hspan]; norm_num
        have := (div_eq_zero_iff.mp h0).resolve_right hgz
        linarith
      subst hev'
      rfl
    | succ k' =>
      rw [linspace_getLast? _ _ _ (by omega)]

/-- Witness for the amended C1 at a concrete input: start `(0, 10)`,
gradient `1`, thresholds `[10, 20]`, span 10 days. -/
theorem C1_target_endpoints_witness :
    ∃ curve : PSeries,
      get_target (some 0) (some 1) (some 10) none (some [10, 20]) = .ok curve ∧
      curve.index.head? = some 0 ∧ curve.values.head? = some 10 ∧
      curve.index.getLast? = some (0 + ((20 : ℚ) - 10) / 1) ∧
      curve.values.getLast? = some 20 :=
  C1_target_endpoints (some 0) (some 10) none 1 10 0 20 [10, 20] 10 rfl
    (by norm_num [pyMax, List.foldl, max_def]) (by norm_num) (by norm_num)

/-- C5: when `target_start` is not supplied, the start point chosen by
`get_target` is the series entry whose date minimises the absolute
difference to `target_start_date`; on a tie the lower (earlier) index wins,
and that entry's date and value become the start date and start value fed
into the rest of the computation. -/
theorem C5_nearest_start (s : PSeries) (d : ℚ) (tg : Option ℚ) (thr : Option (List ℚ))
    (hne : s.index ≠ []) (hlen : s.index.length = s.values.length) :
    ∃ (idx : ℕ) (label v : ℚ),
      s.index.get? idx = some label ∧
      s.values.get? idx = some v ∧
      get_target (some d) tg none (some s) thr = build_target (some label) v tg thr ∧
      (∀ (k : ℕ) (y : ℚ), s.index.get? k = some y → |label - d| ≤ |y - d|) ∧
      (∀ (k : ℕ) (y : ℚ), k < idx → s.index.get? k = some y → |label - d| < |y - d|) := by
  have hlne : s.index.map (fun x => |x - d|) ≠ [] := by
    simpa using hne
  obtain ⟨idx, m, hmin⟩ := minWithIdx_of_ne_nil _ hlne
  have hgetm := minWithIdx_get _ _ _ hmin
  have hidx : idx < s.index.length := by
    obtain ⟨hlt, -⟩ := List.get?_eq_some.mp hgetm
    simpa using hlt
  obtain ⟨label, hlabel⟩ : ∃ label, s.index.get? idx = some label :=
    ⟨s.index.get ⟨idx, hidx⟩, List.get?_eq_get hidx⟩
  have hm : m = |label - d| := by
    rw [List.get?_map, hlabel] at hgetm
    injection hgetm with h
    exact h.symm
  obtain ⟨v, hv⟩ : ∃ v, s.values.get? idx = some v :=
    ⟨s.values.get ⟨idx, hlen ▸ hidx⟩, List.get?_eq_get (hlen ▸ hidx)⟩
  have hfind : (s.index.zip s.values).find? (fun p => p.1 == label) = some (label, v) := by
    apply find_zip_eq _ _ idx _ _ hlabel hv
    intro k hk hcon
    have hlk : (s.index.map fun x => |x - d|).get? k = some m := by
      rw [List.get?_map, hcon, hm]
      rfl
    exact lt_irrefl m (minWithIdx_first _ _ _ hmin k m hk hlk)
  have hrs : resolve_start (some d) none (some s) = .ok (some label, v) := by
    simp only [resolve_start, hmin, hlabel, hfind]
  refine ⟨idx, label, v, hlabel, hv, ?_, ?_, ?_⟩
  · unfold get_target
    rw [hrs]
  · intro k y hy
    have hky : (s.index.map fun x => |x - d|).get? k = some |y - d| := by
      rw [List.get?_map, hy]
      rfl
    exact hm ▸ minWithIdx_le _ _ _ hmin k _ hky
  · intro k y hk hy
    have hky : (s.index.map fun x => |x - d|).get? k = some |y - d| := by
      rw [List.get?_map, hy]
      rfl
    exact hm ▸ minWithIdx_first _ _ _ hmin k _ hk hky

/-- Witness for C5 at a concrete series: dates `[0, 10]`, values `[5, 7]`,
searching near date `2` picks index 0 (date 0, value 5). -/
theorem C5_nearest_start_witness :
    ∃ (idx : ℕ) (label v : ℚ),
      (PSeries.mk [0, 10] [5, 7]).index.get? idx = some label ∧
      (PSeries.mk [0, 10] [5, 7]).values.get? idx = some v ∧
      get_target (some 2) (some 1) none (some (PSeries.mk [0, 10] [5, 7])) (some [20]) =
        build_target (some label) v (some 1) (some [20]) ∧
      (∀ (k : ℕ) (y : ℚ),
        (PSeries.mk [0, 10] [5, 7]).index.get? k = some y → |label - 2| ≤ |y - 2|) ∧
      (∀ (k : ℕ) (y : ℚ), k < idx →
        (PSeries.mk [0, 10] [5, 7]).index.get? k = some y → |label - 2| < |y - 2|) :=
  C5_nearest_start (PSeries.mk [0, 10] [5, 7]) 2 (some 1) (some [20]) (by simp) rfl

/-- C4: the returned target curve visits exactly the whole-day offsets from
the start date that do not pass the extrapolated end date (one point per
calendar day between them, inclusive, with no repeats), and its values are
pairwise non-decreasing for a positive gradient and pairwise non-increasing
for a negative one. -/
theorem C4_daily_monotone (target_start_date target_start : Option ℚ)
    (ts : Option PSeries) (g sv sd ev : ℚ) (thr : List ℚ) (curve : PSeries)
    (hres : resolve_start target_start_date target_start ts = .ok (some sd, sv))
    (hev : (if g > 0 then pyMax thr else pyMin thr) = .ok ev)
    (hgz : g ≠ 0)
    (hcurve : get_target target_start_date (some g) target_start ts (some thr) = .ok curve) :
    (∀ q : ℚ, q ∈ curve.index ↔ ∃ i : ℕ, q = sd + (i : ℚ) ∧ q ≤ sd + (ev - sv) / g) ∧
    curve.index.Nodup ∧
    (0 < g → curve.values.Pairwise (· ≤ ·)) ∧
    (g < 0 → curve.values.Pairwise fun x y => y ≤ x) := by
  have hgt := get_target_build target_start_date target_start ts g sv sd ev thr hres hev hgz
  rw [hcurve] at hgt
  injection hgt with hgt
  subst hgt
  refine ⟨fun q => date_range_mem sd (sd + (ev - sv) / g) q, date_range_nodup _ _, ?_, ?_⟩
  · intro hg
    by_cases hsp : sd + (ev - sv) / g < sd
    · unfold date_range
      rw [if_pos hsp]
      exact List.Pairwise.nil
    · have hs0 : 0 ≤ (ev - sv) / g := by linarith [not_lt.mp hsp]
      have hsv : sv ≤ ev := by
        have h1 : 0 ≤ (ev - sv) / g * g := mul_nonneg hs0 (le_of_lt hg)
        rw [div_mul_cancel₀ _ hgz] at h1
        linarith
      exact linspace_pairwise_le sv ev _ hsv
  · intro hg
    by_cases hsp : sd + (ev - sv) / g < sd
    · unfold date_range
      rw [if_pos hsp]
      exact List.Pairwise.nil
    · have hs0 : 0 ≤ (ev - sv) / g := by linarith [not_lt.mp hsp]
      have hsv : ev ≤ sv := by
        have h1 : (ev - sv) / g * g ≤ 0 := mul_nonpos_of_nonneg_of_nonpos hs0 (le_of_lt hg)
        rw [div_mul_cancel₀ _ hgz] at h1
        linarith
      exact linspace_pairwise_ge sv ev _ hsv

/-- Witness for C4 at a concrete descending curve: start `(0, 25)`,
gradient `-1`, thresholds `[10, 20]`, so the end value is 10 and the curve
descends one unit per day for 16 days. -/
theorem C4_daily_monotone_witness :
    (∀ q : ℚ, q ∈ (PSeries.mk
        [0, 1, 2, 3, 4, 5, 6, 7, 8, 9, 10, 11, 12, 13, 14, 15]
        [25, 24, 23, 22, 21, 20, 19, 18, 17, 16, 15, 14, 13, 12, 11, 10]).index ↔
      ∃ i : ℕ, q = 0 + (i : ℚ) ∧ q ≤ 0 + ((10 : ℚ) - 25) / (-1)) ∧
    (PSeries.mk [0, 1, 2, 3, 4, 5, 6, 7, 8, 9, 10, 11, 12, 13, 14, 15]
        [25, 24, 23, 22, 21, 20, 19, 18, 17, 16, 15, 14, 13, 12, 11, 10]).index.Nodup ∧
    (0 < (-1 : ℚ) → (PSeries.mk [0, 1, 2, 3, 4, 5, 6, 7, 8, 9, 10, 11, 12, 13, 14, 15]
        [25, 24, 23, 22, 21, 20, 19, 18, 17, 16, 15, 14, 13, 12, 11, 10]).values.Pairwise
        (· ≤ ·)) ∧
    ((-1 : ℚ) < 0 → (PSeries.mk [0, 1, 2, 3, 4, 5, 6, 7, 8, 9, 10, 11, 12, 13, 14, 15]
        [25, 24, 23, 22, 21, 20, 19, 18, 17, 16, 15, 14, 13, 12, 11, 10]).values.Pairwise
        fun x y => y ≤ x) :=
  C4_daily_monotone (some 0) (some 25) none (-1) 25 0 10 [10, 20] _ rfl
    (by norm_num [pyMin, List.foldl, min_def]) (by norm_num)
    (by
      have h15 : (⌊(15 : ℚ)⌋ : ℤ) = 15 := by
        rw [Int.floor_eq_iff] <;> norm_num
      norm_num [get_target, resolve_start, build_target, pyMax, pyMin, pyDiv, date_range,
        linspace, h15, show Int.toNat 15 = 15 from rfl,
        show List.range 16 = [0, 1, 2, 3, 4, 5, 6, 7, 8, 9, 10, 11, 12, 13, 14, 15] from rfl])

/-- A successful threshold loop yields one line per threshold, at position
`i` carrying threshold `i`, colour `i` and name `i`, all spanning the same
x-interval. -/
theorem buildLines_spec : ∀ (thr : List ℚ) (cls nms : List String) (lo hi : ℚ)
    (out : List ThresholdLine),
    buildLines lo hi thr (some cls) (some nms) = .ok out →
    out.length = thr.length ∧
    ∀ (i : ℕ) (t : ℚ) (c n : String), thr.get? i = some t → cls.get? i = some c →
      nms.get? i = some n → out.get? i = some ⟨(lo, hi), (t, t), c, n⟩ := by
  intro thr
  induction thr with
  | nil =>
    intro cls nms lo hi out h
    simp only [buildLines] at h
    injection h with h
    subst h
    exact ⟨rfl, fun i t c n ht => by simp [List.get?] at ht⟩
  | cons t ts ih =>
    intro cls nms lo hi out h
    cases cls with
    | nil =>
      simp only [buildLines] at h
      exact Except.noConfusion h
    | cons c cs =>
      cases nms with
      | nil =>
        simp only [buildLines] at h
        exact Except.noConfusion h
      | cons n ns =>
        simp only [buildLines] at h
        cases hrest : buildLines lo hi ts (some cs) (some ns) with
        | error e => rw [hrest] at h; simp [Except.map] at h
        | ok rest =>
          rw [hrest] at h
          simp only [Except.map] at h
          injection h with h
          subst h
          obtain ⟨hlen, hget⟩ := ih cs ns lo hi rest hrest
          refine ⟨by simp [hlen], ?_⟩
          intro i t' c' n' ht hc hn
          cases i with
          | zero =>
            simp only [List.get?_cons_zero, Option.some.injEq] at ht hc hn
            subst ht; subst hc; subst hn
            rfl
          | succ i' =>
            simp only [List.get?_cons_succ] at ht hc hn ⊢
            exact hget i' t' c' n' ht hc hn

/-- Forward evaluation of `work`: when the read, the target derivation, the
four endpoint accesses and the threshold loop all succeed, the rendered
output is the series, the two means, the target curve and the lines. -/
theorem work_eq (rows : List (ℚ × ℚ)) (png : String) (thrList : List ℚ)
    (nms cls : Option (List String)) (lbl : String) (ts0 tsd tg : Option ℚ)
    (s target : PSeries) (lines : List ThresholdLine) (a b a2 b2 : ℚ)
    (hread : read_csv rows = .ok s)
    (hT : get_target tsd tg none (some s) (some thrList) = .ok target)
    (hH1 : s.index.head? = some a) (hH2 : target.index.head? = some b)
    (hL1 : s.index.getLast? = some a2) (hL2 : target.index.getLast? = some b2)
    (hB : buildLines (min a b) (max a2 b2) thrList cls nms = .ok lines) :
    work rows png (some thrList) nms cls lbl ts0 tsd tg =
      .ok ⟨s, rolling_mean 7 s.values, expanding_mean s.values, target, lines,
           lbl, png⟩ := by
  unfold work
  simp only [hread, hT, hH1, hH2, hL1, hL2, hB]

/-- Any successful `work` run computes its two averaged traces as the
rolling weekly mean and the expanding mean of the parsed values. -/
theorem work_ok_means (rows : List (ℚ × ℚ)) (png : String) (thr : Option (List ℚ))
    (nms cls : Option (List String)) (lbl : String) (ts0 tsd tg : Option ℚ)
    (s : PSeries) (r : RenderResult)
    (hread : read_csv rows = .ok s)
    (hwork : work rows png thr nms cls lbl ts0 tsd tg = .ok r) :
    r.rollingMean = rolling_mean 7 s.values ∧
    r.runningMean = expanding_mean s.values := by
  unfold work at hwork
  simp only [hread] at hwork
  split at hwork
  · exact Except.noConfusion hwork
  · split at hwork
    · split at hwork
      · split at hwork
        · exact Except.noConfusion hwork
        · split at hwork
          · exact Except.noConfusion hwork
          · injection hwork with hwork
            rw [← hwork]
            exact ⟨rfl, rfl⟩
      · exact Except.noConfusion hwork
    · exact Except.noConfusion hwork

/-- C2: for an empty input file, `work` raises the index-out-of-range
error (not a successful run on a silently empty series), and the error
propagates to the caller. -/
theorem C2_empty_file_index_error :
    work [] "out.png" none none none "Value" none none none =
      .error .indexError := rfl

/-- C9: the target overlay is not optional: `get_target` runs on every call
of `work`, so on any readable non-empty input, leaving the target
parameters at their `None` defaults makes the nearest-index search subtract
`None` from the date index, and the resulting `TypeError` aborts the run
instead of rendering a chart without a target curve. -/
theorem C9_target_required (rows : List (ℚ × ℚ)) (png : String)
    (thr : Option (List ℚ)) (nms cls : Option (List String)) (lbl : String)
    (hne : rows ≠ []) :
    work rows png thr nms cls lbl none none none = .error .typeError := by
  cases rows with
  | nil => exact absurd rfl hne
  | cons p ps => rfl

/-- Witness for C9: a one-row file with all target parameters left at
`None`. -/
theorem C9_target_required_witness :
    work [(2, 0)] "out.png" none none none "Value" none none none =
      .error .typeError :=
  C9_target_required [(2, 0)] "out.png" none none none "Value" (by simp)

/-- C3 counterexample: the claim says positions with fewer than 7 preceding
samples hold the mean over however many samples are available, so for the
two-point input `2;day0`, `4;day1` position 0 would hold `2` and position 1
would hold `3`.  The computed rolling mean is instead missing (NaN) at both
positions: pandas' default `min_periods` equals the window, so the first 6
positions of the 7-sample rolling mean are NaN, not partial means. -/
theorem C3_counterexample :
    (work [(2, 0), (4, 1)] "out.png" (some [10]) (some ["t"]) (some ["r"]) "Value"
        none (some 0) (some 1)).map RenderResult.rollingMean = .ok [none, none] ∧
    (none : Option ℚ) ≠ some 2 := by
  refine ⟨?_, by simp⟩
  norm_num [work, read_csv, get_target, resolve_start, build_target, pyMax, pyMin, pyDiv,
    date_range, linspace, rolling_mean, expanding_mean, buildLines, minWithIdx,
    Except.map, List.find?, List.getLast?,
    show Int.toNat 8 = 8 from rfl,
    show List.range 9 = [0, 1, 2, 3, 4, 5, 6, 7, 8] from rfl,
    show List.range 2 = [0, 1] from rfl]

/-- C3 (amended): for every parsed input series, the computed rolling mean
has the same length as the input, but the positions with fewer than 7
available samples (the first `min(6, length)` of them) hold a missing value
(NaN), not a partial mean; from the 7th position on it is the arithmetic
mean of the trailing 7 samples.  The cumulative mean has the same length as
the input and every cell holds the (finite) mean of the samples so far. -/
theorem C3_mean_lengths (rows : List (ℚ × ℚ)) (png : String) (thr : Option (List ℚ))
    (nms cls : Option (List String)) (lbl : String) (ts0 tsd tg : Option ℚ)
    (s : PSeries) (r : RenderResult)
    (hread : read_csv rows = .ok s)
    (hwork : work rows png thr nms cls lbl ts0 tsd tg = .ok r) :
    r.rollingMean.length = s.values.length ∧
    (∀ i : ℕ, i < s.values.length → i + 1 < 7 → r.rollingMean.get? i = some none) ∧
    (∀ i : ℕ, i < s.values.length → 7 ≤ i + 1 →
      r.rollingMean.get? i =
        some (some (((s.values.drop (i + 1 - 7)).take 7).sum / 7))) ∧
    r.runningMean.length = s.values.length ∧
    (∀ i : ℕ, i < s.values.length →
      r.runningMean.get? i = some ((s.values.take (i + 1)).sum / ((i : ℚ) + 1))) := by
  obtain ⟨hroll, hrun⟩ :=
    work_ok_means rows png thr nms cls lbl ts0 tsd tg s r hread hwork
  rw [hroll, hrun]
  unfold rolling_mean expanding_mean
  refine ⟨by simp, ?_, ?_, by simp, ?_⟩
  · intro i hi h7
    rw [List.get?_map, List.get?_range hi]
    simp [if_pos h7]
  · intro i hi h7
    rw [List.get?_map, List.get?_range hi]
    simp only [Option.map_some']
    rw [if_neg (by omega : ¬ i + 1 < 7)]
    norm_num
  · intro i hi
    rw [List.get?_map, List.get?_range hi]
    rfl

/-- Witness for the amended C3: a one-row file (`2;day0`), whose rolling
mean is the single missing cell and whose cumulative mean is the single
sample. -/
theorem C3_mean_lengths_witness :
    ([none] : List (Option ℚ)).length = [(2 : ℚ)].length ∧
    (∀ i : ℕ, i < [(2 : ℚ)].length → i + 1 < 7 →
      ([none] : List (Option ℚ)).get? i = some none) ∧
    (∀ i : ℕ, i < [(2 : ℚ)].length → 7 ≤ i + 1 →
      ([none] : List (Option ℚ)).get? i =
        some (some ((([(2 : ℚ)].drop (i + 1 - 7)).take 7).sum / 7))) ∧
    ([(2 : ℚ)]).length = [(2 : ℚ)].length ∧
    (∀ i : ℕ, i < [(2 : ℚ)].length →
      ([(2 : ℚ)]).get? i = some (([(2 : ℚ)].take (i + 1)).sum / ((i : ℚ) + 1))) :=
  C3_mean_lengths [(2, 0)] "out.png" (some [10]) (some ["t"]) (some ["r"]) "Value"
    none (some 0) (some 1) ⟨[0], [2]⟩
    ⟨⟨[0], [2]⟩, [none], [2], ⟨[0, 1, 2, 3, 4, 5, 6, 7, 8], [2, 3, 4, 5, 6, 7, 8, 9, 10]⟩,
      [⟨(0, 8), (10, 10), "r", "t"⟩], "Value", "out.png"⟩
    rfl
    (by norm_num [work, read_csv, get_target, resolve_start, build_target, pyMax, pyMin,
      pyDiv, date_range, linspace, rolling_mean, expanding_mean, buildLines, minWithIdx,
      Except.map, List.find?, List.getLast?,
      show Int.toNat 8 = 8 from rfl,
      show List.range 9 = [0, 1, 2, 3, 4, 5, 6, 7, 8] from rfl,
      show List.range 1 = [0] from rfl])

/-- C8: when `work` succeeds, each threshold's horizontal dashed line spans
from the smaller of the two first dates (observed series versus target
curve) to the larger of the two last dates, and the line at position `i`
carries threshold `i`, colour `i` and name `i` of the parallel sequences,
one line per threshold. -/
theorem C8_threshold_lines (rows : List (ℚ × ℚ)) (png : String) (thrList : List ℚ)
    (nms cls : List String) (lbl : String) (ts0 tsd tg : Option ℚ)
    (s target : PSeries) (r : RenderResult) (a b a2 b2 : ℚ)
    (hread : read_csv rows = .ok s)
    (hT : get_target tsd tg none (some s) (some thrList) = .ok target)
    (hH1 : s.index.head? = some a) (hH2 : target.index.head? = some b)
    (hL1 : s.index.getLast? = some a2) (hL2 : target.index.getLast? = some b2)
    (hwork : work rows png (some thrList) (some nms) (some cls) lbl ts0 tsd tg = .ok r) :
    r.thresholdLines.length = thrList.length ∧
    ∀ (i : ℕ) (t : ℚ) (c n : String), thrList.get? i = some t →
      cls.get? i = some c → nms.get? i = some n →
      r.thresholdLines.get? i = some ⟨(min a b, max a2 b2), (t, t), c, n⟩ := by
  cases hB : buildLines (min a b) (max a2 b2) thrList (some cls) (some nms) with
  | error e =>
    exfalso
    have hw : work rows png (some thrList) (some nms) (some cls) lbl ts0 tsd tg =
        .error e := by
      unfold work
      simp only [hread, hT, hH1, hH2, hL1, hL2, hB]
    rw [hw] at hwork
    exact Except.noConfusion hwork
  | ok lines =>
    have hw := work_eq rows png thrList (some nms) (some cls) lbl ts0 tsd tg s target
      lines a b a2 b2 hread hT hH1 hH2 hL1 hL2 hB
    rw [hw] at hwork
    injection hwork with hwork
    rw [← hwork]
    exact buildLines_spec thrList cls nms (min a b) (max a2 b2) lines hB

/-- Witness for C8: a one-row file (`3;day5`), one threshold `10` named
`thr10` coloured `red`; the observed series spans day 5 only and the target
curve runs to day 12, so the line spans from day 5 to day 12. -/
theorem C8_threshold_lines_witness :
    (RenderResult.mk ⟨[5], [3]⟩ (rolling_mean 7 [3]) (expanding_mean [3])
        ⟨[5, 6, 7, 8, 9, 10, 11, 12], [3, 4, 5, 6, 7, 8, 9, 10]⟩
        [⟨(min 5 5, max 5 12), (10, 10), "red", "thr10"⟩] "Value"
        "out.png").thresholdLines.length = [(10 : ℚ)].length ∧
    (∀ (i : ℕ) (t : ℚ) (c n : String), [(10 : ℚ)].get? i = some t →
      ["red"].get? i = some c → ["thr10"].get? i = some n →
      (RenderResult.mk ⟨[5], [3]⟩ (rolling_mean 7 [3]) (expanding_mean [3])
        ⟨[5, 6, 7, 8, 9, 10, 11, 12], [3, 4, 5, 6, 7, 8, 9, 10]⟩
        [⟨(min 5 5, max 5 12), (10, 10), "red", "thr10"⟩] "Value"
        "out.png").thresholdLines.get? i =
        some ⟨(min 5 5, max 5 12), (t, t), c, n⟩) :=
  C8_threshold_lines [(3, 5)] "out.png" [10] ["thr10"] ["red"] "Value" none (some 5)
    (some 1) ⟨[5], [3]⟩ ⟨[5, 6, 7, 8, 9, 10, 11, 12], [3, 4, 5, 6, 7, 8, 9, 10]⟩
    (RenderResult.mk ⟨[5], [3]⟩ (rolling_mean 7 [3]) (expanding_mean [3])
      ⟨[5, 6, 7, 8, 9, 10, 11, 12], [3, 4, 5, 6, 7, 8, 9, 10]⟩
      [⟨(min 5 5, max 5 12), (10, 10), "red", "thr10"⟩] "Value" "out.png")
    5 5 5 12 rfl
    (by
      have h7 : (⌊(7 : ℚ)⌋ : ℤ) = 7 := by
        rw [Int.floor_eq_iff] <;> norm_num
      norm_num [get_target, resolve_start, build_target, pyMax, pyMin, pyDiv, date_range,
        linspace, minWithIdx, List.find?, h7, show Int.toNat 7 = 7 from rfl,
        show List.range 8 = [0, 1, 2, 3, 4, 5, 6, 7] from rfl])
    rfl rfl rfl rfl
    (work_eq [(3, 5)] "out.png" [10] (some ["thr10"]) (some ["red"]) "Value" none
      (some 5) (some 1) ⟨[5], [3]⟩ ⟨[5, 6, 7, 8, 9, 10, 11, 12], [3, 4, 5, 6, 7, 8, 9, 10]⟩
      [⟨(min 5 5, max 5 12), (10, 10), "red", "thr10"⟩] 5 5 5 12 rfl
      (by
        have h7 : (⌊(7 : ℚ)⌋ : ℤ) = 7 := by
          rw [Int.floor_eq_iff] <;> norm_num
        norm_num [get_target, resolve_start, build_target, pyMax, pyMin, pyDiv, date_range,
          linspace, minWithIdx, List.find?, h7, show Int.toNat 7 = 7 from rfl,
          show List.range 8 = [0, 1, 2, 3, 4, 5, 6, 7] from rfl])
      rfl rfl rfl rfl rfl)

end TimeSeries
